import Mathlib

/-!
Verification of the document Q&A pipeline (document_qa_server.py,
validation_agent.py): a shallow embedding of the chunker, the embedding
store, the similarity search, the validation agent and the orchestrator
endpoints, followed by theorems about the claimed properties.

Modelling conventions:
* Text is `List Char`; machine floats are modelled as `ℚ` (the claims under
  scrutiny only involve comparisons and equalities at benign literals).
* External collaborators (the OpenAI embedder and generator, sklearn's
  `cosine_similarity`, `json.loads`, the file loader) are passed in as
  function parameters; faults are `Except String`.
* `np.argsort` (numpy's default introsort) is an external library routine;
  it is modelled by its contract `IsArgsortOf` — an ascending permutation
  of the indices whose tie order is unspecified, since the default
  quicksort is not stable in general — while `argsortInsertion` captures
  the stable insertion-sort path numpy takes below its small-array cutoff,
  which is its exact behaviour on the concrete two-element stores used in
  witnesses and counterexamples.
-/

/-- Python whitespace test (`str.strip`, regex `\s`), restricted to the
ASCII whitespace characters Lean's `Char.isWhitespace` knows. -/
def isWS (c : Char) : Bool := c.isWhitespace

abbrev Text := List Char

/-- Python `s.lstrip()`. -/
def pyLStrip (s : Text) : Text := s.dropWhile isWS

/-- Python `s.rstrip()`. -/
def pyRStrip (s : Text) : Text := (s.reverse.dropWhile isWS).reverse

/-- Python `s.strip()`. -/
def pyStrip (s : Text) : Text := pyRStrip (pyLStrip s)

/-- `DocumentChunk` dataclass (document_qa_server.py line 41). -/
structure DocumentChunk where
  content : Text
  chunk_id : String
  source_file : String
  start_char : Int
  end_char : Int
  embedding : Option (List ℚ) := none
deriving DecidableEq, Inhabited

/-! ### DocumentChunker (document_qa_server.py lines 106-184) -/

/-- Length of the maximal leading whitespace run. -/
def leadingWS (s : Text) : Nat := (s.takeWhile isWS).length

/-- Length of the leftmost match of the regex `\n\s*\n` when anchored at the
head of `s` (`none` when there is no match at the head).  The greedy `\s*`
with backtracking consumes the LARGEST `k` below the leading-whitespace run
of the tail such that the next character is `'\n'`; the match length is then
`k + 2` (never `0`). -/
def matchBlankSep (s : Text) : Option Nat :=
  match s with
  | [] => none
  | c :: rest =>
    if c = '\n' then
      match ((List.range (leadingWS rest)).filter
          fun k => rest.getD k 'x' = '\n').getLast? with
      | some k => some (k + 2)
      | none => none
    else none

/-- `re.split(r'\n\s*\n', content)`: scan left to right, cutting at each
leftmost match.  `fuel` bounds the recursion; `s.length` steps always
suffice because every step consumes at least one character, so the
fuel-exhausted branch is unreachable when called through `reSplitBlank`. -/
def reSplitAux : Nat → Text → Text → List Text
  | _, [], acc => [acc.reverse]
  | 0, s, acc => [acc.reverse ++ s]
  | fuel + 1, c :: rest, acc =>
    match matchBlankSep (c :: rest) with
    | some len => acc.reverse :: reSplitAux fuel ((c :: rest).drop len) []
    | none => reSplitAux fuel rest (c :: acc)

def reSplitBlank (s : Text) : List Text := reSplitAux s.length s []

/-- `DocumentChunker._split_by_paragraphs` (lines 176-184): split on blank
lines, strip each piece, keep the non-empty ones. -/
def splitByParagraphs (content : Text) : List Text :=
  ((reSplitBlank content).map pyStrip).filter (fun p => p ≠ [])

/-- Python slice `s[-k:]` for `k ≥ 0`: the whole string when `k = 0`
(`s[-0:] = s[0:]`) or `k ≥ len(s)`, else the last `k` characters. -/
def pySliceLast (s : Text) (k : Nat) : Text :=
  if k = 0 then s else s.drop (s.length - k)

/-- Line 151: `current_chunk[-self.overlap:] if len(current_chunk) >
self.overlap else current_chunk`. -/
def overlapText (cur : Text) (overlap : Nat) : Text :=
  if cur.length > overlap then pySliceLast cur overlap else cur

structure ChunkParams where
  chunk_size : Nat
  overlap : Nat
deriving DecidableEq

/-- `DocumentChunker()` constructor defaults (line 109). -/
def defaultChunkParams : ChunkParams := ⟨1000, 200⟩

/-- `pathlib.Path(p).stem`: the final path component without its last
suffix (a leading dot is not a suffix separator). -/
def pathStem (p : String) : String :=
  let name := (p.toList.reverse.takeWhile (fun c => c ≠ '/')).reverse
  let afterDot := (name.reverse.takeWhile (fun c => c ≠ '.')).length
  let i := name.length - 1 - afterDot
  if ('.' ∈ name) ∧ 0 < i then String.mk (name.take i) else String.mk name

def mkChunkId (stem : String) (n : Nat) : String := stem ++ "_" ++ toString n

/-- The paragraph-accumulation loop of `DocumentChunker.chunk_document`
(lines 138-171), including the final-chunk close.  State: remaining
paragraphs, the accumulation buffer `current_chunk`, `current_start` and
the running `chunk_id` ordinal. -/
def chunkDocAux (P : ChunkParams) (stem source : String) :
    List Text → Text → Int → Nat → List DocumentChunk
  | [], cur, start, cid =>
    if pyStrip cur ≠ [] then
      [{ content := pyStrip cur, chunk_id := mkChunkId stem cid,
         source_file := source, start_char := start,
         end_char := start + (cur.length : Int) }]
    else []
  | p :: ps, cur, start, cid =>
    if cur.length + p.length > P.chunk_size ∧ cur ≠ [] then
      let ov := overlapText cur P.overlap
      let newCur := ov ++ '\n' :: p
      { content := pyStrip cur, chunk_id := mkChunkId stem cid,
        source_file := source, start_char := start,
        end_char := start + (cur.length : Int) } ::
      chunkDocAux P stem source ps newCur
        (start + (newCur.length : Int) - (ov.length : Int) - (p.length : Int) - 1)
        (cid + 1)
    else
      chunkDocAux P stem source ps
        (if cur ≠ [] then cur ++ '\n' :: p else p) start cid

/-- `DocumentChunker.chunk_document` (lines 120-174). -/
def chunk_document (P : ChunkParams) (content : Text) (source_file : String) :
    List DocumentChunk :=
  chunkDocAux P (pathStem source_file) source_file
    (splitByParagraphs content) [] 0 0

/-! ### EmbeddingStore (document_qa_server.py lines 187-282) -/

structure EmbeddingStoreState where
  chunks : List DocumentChunk
  embeddings : Option (List (List ℚ))
deriving DecidableEq

/-- `EmbeddingStore.__init__` (lines 190-199). -/
def emptyStore : EmbeddingStoreState := ⟨[], none⟩

/-- `EmbeddingStore.clear` (lines 278-282). -/
def clearStore (_ : EmbeddingStoreState) : EmbeddingStoreState := ⟨[], none⟩

/-- `np.vstack(rows)`: fails (raises) on an empty list, a missing (`None`)
row, or ragged row lengths; otherwise stacks the rows into a matrix whose
row count is the list length. -/
def vstack (rows : List (Option (List ℚ))) : Option (List (List ℚ)) :=
  if rows = [] then none
  else if (rows.filterMap id).length = rows.length ∧
      (rows.filterMap id).all
        (fun v => v.length = ((rows.filterMap id).headD []).length) then
    some (rows.filterMap id)
  else none

/-- Lines 215-216: `for chunk, embedding in zip(chunks, embeddings):
chunk.embedding = embedding` — assignment stops at the shorter list, the
remaining chunks keep their previous (absent) embedding. -/
def assignEmbeddings (new : List DocumentChunk) (embs : List (List ℚ)) :
    List DocumentChunk :=
  (new.zip embs).map (fun ce => { ce.1 with embedding := some ce.2 }) ++
    new.drop embs.length

/-- `EmbeddingStore.add_chunks` (lines 201-225).  Returns the state of the
store after the call together with `some errorMessage` when the call
raised.  On an embedder fault the store is untouched; on a `vstack` fault
(unreachable when the embedder honours its one-vector-per-text contract)
the chunk list has already been extended while `embeddings` is stale,
exactly as in the Python. -/
def addChunks (embed : List Text → Except String (List (List ℚ)))
    (st : EmbeddingStoreState) (new : List DocumentChunk) :
    EmbeddingStoreState × Option String :=
  match embed (new.map (fun c => c.content)) with
  | .error e => (st, some e)
  | .ok embs =>
    let chunks' := st.chunks ++ assignEmbeddings new embs
    match vstack (chunks'.map (fun c => c.embedding)) with
    | some m => ({ chunks := chunks', embeddings := some m }, none)
    | none => ({ st with chunks := chunks' }, some "vstack error")

/-- The contract of the external `np.argsort(similarities)` call: the
result is a permutation of `range n` along which the scores are
non-decreasing.  numpy's default `kind=quicksort` is an introsort and is
NOT stable in general, so the relative order of equal scores is left
unspecified by this contract. -/
def IsArgsortOf (sims : List ℚ) (perm : List Nat) : Prop :=
  perm.Perm (List.range sims.length) ∧
  perm.Pairwise (fun i j => sims.getD i 0 ≤ sims.getD j 0)

/-- The effective key order of numpy's insertion-sort path: compare
scores, break equal scores by index. -/
def argsortLe (sims : List ℚ) (i j : Nat) : Prop :=
  sims.getD i 0 < sims.getD j 0 ∨ (sims.getD i 0 = sims.getD j 0 ∧ i ≤ j)

instance (sims : List ℚ) : DecidableRel (argsortLe sims) := fun i j => by
  unfold argsortLe; infer_instance

/-- The sort numpy's introsort runs on arrays below its small-array
(~16-element) cutoff: a stable ascending index sort.  This is the exact
behaviour of `np.argsort` on the concrete two-element stores used in the
witnesses and the counterexample below, but it is NOT a guarantee of
`np.argsort` in general — larger arrays go through unstable quicksort
partitioning, so only `IsArgsortOf` may be assumed of it. -/
def argsortInsertion (sims : List ℚ) : List Nat :=
  List.insertionSort (argsortLe sims) (List.range sims.length)

/-- Line 249: `np.argsort(similarities)[::-1][:top_k]`, applied to the
index permutation `argsorted` returned by the external `np.argsort`. -/
def topIndices (argsorted : List Nat) (topK : Nat) : List Nat :=
  argsorted.reverse.take topK

/-- Lines 249-255: pick the top-k indices and pair each chunk with its
similarity score. -/
def searchCore (argsorted : List Nat) (chunks : List DocumentChunk)
    (sims : List ℚ) (topK : Nat) : List (DocumentChunk × ℚ) :=
  (topIndices argsorted topK).map
    (fun i => (chunks.getD i default, sims.getD i 0))

/-- `EmbeddingStore.search_similar` (lines 227-258).  `embed` is the
external embedder, `cosSim` is sklearn's `cosine_similarity` row
(query vector × stored matrix → one score per stored row), and
`argsortImpl` is the external `np.argsort` (expected to satisfy
`IsArgsortOf`; its tie behaviour is library-internal). -/
def searchStore (embed : List Text → Except String (List (List ℚ)))
    (cosSim : List ℚ → List (List ℚ) → List ℚ)
    (argsortImpl : List ℚ → List Nat)
    (st : EmbeddingStoreState) (query : Text) (topK : Nat) :
    Except String (List (DocumentChunk × ℚ)) :=
  if st.chunks = [] ∨ st.embeddings = none then .ok []
  else
    match embed [query] with
    | .error e => .error e
    | .ok qembs =>
      let sims := cosSim (qembs.headD []) (st.embeddings.getD [])
      .ok (searchCore (argsortImpl sims) st.chunks sims topK)

/-! ### ValidationAgent (validation_agent.py) -/

/-- JSON values as produced by the validation schema (the fixed field set
never nests objects). -/
inductive JVal where
  | bool (b : Bool)
  | num (q : ℚ)
  | str (s : String)
  | arr (l : List JVal)
  | null

abbrev JObj := List (String × JVal)

/-- Python `dict.get(k)` on the parsed object. -/
def jGet (j : JObj) (k : String) : Option JVal :=
  (j.find? (fun kv => kv.1 = k)).map (fun kv => kv.2)

/-- Python truthiness `bool(x)` of a JSON value. -/
def jTruthy : JVal → Bool
  | .bool b => b
  | .num q => if q = 0 then false else true
  | .str s => if s = "" then false else true
  | .arr l => match l with | [] => false | _ => true
  | .null => false

/-- Python `float(x)` on a JSON value (`none` models the raised
`TypeError`/`ValueError`; numeric-string coercion is not modelled since the
schema produces numbers). -/
def pyFloat : JVal → Option ℚ
  | .num q => some q
  | .bool b => some (if b then 1 else 0)
  | _ => none

/-- Python `list(x)` on a JSON value (`none` models the raised `TypeError`;
iteration over strings is not modelled since the schema produces lists). -/
def pyList : JVal → Option (List JVal)
  | .arr l => some l
  | _ => none

/-- Python `str(x)` on a JSON value (numeric repr differs from CPython's,
immaterial here since the schema produces a string). -/
def pyStr : JVal → String
  | .str s => s
  | .bool b => if b then "True" else "False"
  | .num q => toString q
  | .arr _ => "[]"
  | .null => "None"

/-- `bool(validation_json.get(k, False))`-style lookup. -/
def getBoolD (j : JObj) (k : String) (d : Bool) : Bool :=
  match jGet j k with
  | some v => jTruthy v
  | none => d

/-- `float(validation_json.get(k, 0.0))`-style lookup. -/
def getFloatD (j : JObj) (k : String) (d : ℚ) : Option ℚ :=
  match jGet j k with
  | some v => pyFloat v
  | none => some d

/-- `list(validation_json.get(k, []))`-style lookup. -/
def getListD (j : JObj) (k : String) (d : List JVal) : Option (List JVal) :=
  match jGet j k with
  | some v => pyList v
  | none => some d

/-- `str(validation_json.get(k, ""))`-style lookup. -/
def getStrD (j : JObj) (k : String) (d : String) : String :=
  match jGet j k with
  | some v => pyStr v
  | none => d

/-- `ValidationStatus` enum (validation_agent.py lines 29-34). -/
inductive ValidationStatus where
  | valid
  | partially_valid
  | invalid
  | uncertain
deriving DecidableEq

/-- The `.value` strings of the enum. -/
def statusValue : ValidationStatus → String
  | .valid => "valid"
  | .partially_valid => "partially_valid"
  | .invalid => "invalid"
  | .uncertain => "uncertain"

/-- `ValidationResult` dataclass (validation_agent.py lines 37-49). -/
structure ValidationResult where
  status : ValidationStatus
  overall_score : ℚ
  is_based_on_document : Bool
  is_accurate : Bool
  is_complete : Bool
  has_hallucinations : Bool
  feedback : String
  confidence : ℚ
  issues : List JVal
  suggestions : List JVal

/-- The decision core of `ValidationAgent._determine_status`
(lines 254-270), applied to the already-extracted score and flags. -/
def determineStatusCore (overall_score : ℚ)
    (is_based_on_document has_hallucinations : Bool) : ValidationStatus :=
  if has_hallucinations then .invalid
  else if ¬ is_based_on_document then .invalid
  else if overall_score ≥ 8/10 then .valid
  else if overall_score ≥ 5/10 then .partially_valid
  else if overall_score ≥ 3/10 then .uncertain
  else .invalid

/-- `ValidationAgent._determine_status` (lines 240-270), including the
defaulting field reads (`none` models a raised coercion error). -/
def determineStatus (j : JObj) : Option ValidationStatus := do
  let score ← getFloatD j "overall_score" 0
  let based := getBoolD j "is_based_on_document" false
  let hall := getBoolD j "has_hallucinations" false
  pure (determineStatusCore score based hall)

/-- Modelled from the spec (§4.4): the ordered status decision table, first
match wins.  Stated separately from `determineStatusCore` so the two can be
compared (refinement check for claim C4). -/
def specStatusTable (score : ℚ) (based halluc : Bool) : ValidationStatus :=
  if halluc = true then .invalid
  else if based = false then .invalid
  else if score ≥ 8/10 then .valid
  else if score ≥ 5/10 then .partially_valid
  else if score ≥ 3/10 then .uncertain
  else .invalid

/-- Python `s.find(c)` (first index; `none` models `-1`). -/
def strFind : Text → Char → Option Nat
  | [], _ => none
  | x :: rest, c =>
    if x = c then some 0 else (strFind rest c).map (fun k => k + 1)

/-- Python `s.rfind(c)` (last index; `none` models `-1`). -/
def strRFind (s : Text) (c : Char) : Option Nat :=
  (strFind s.reverse c).map (fun k => s.length - 1 - k)

/-- The JSON-extraction logic of `ValidationAgent.validate_answer`
(lines 141-153): direct parse first, else parse the inclusive substring
from the first `'\x7b'` to the last `'\x7d'` when both exist in that
order, else fail.  `loads` is Python's `json.loads` restricted to
object results (a non-object parse also ends in the error path, via the
subsequent attribute error). -/
def extractJson (loads : Text → Option JObj) (response_text : Text) :
    Except String JObj :=
  match loads response_text with
  | some j => .ok j
  | none =>
    match strFind response_text '{', strRFind response_text '}' with
    | some a, some b =>
      if a < b then
        match loads ((response_text.take (b + 1)).drop a) with
        | some j => .ok j
        | none => .error "json decode error"
      else .error "Could not extract JSON from validation response"
    | _, _ => .error "Could not extract JSON from validation response"

/-- The `ValidationResult` constructed on the error path of
`validate_answer` (lines 178-189). -/
def errorValidationResult (e : String) : ValidationResult :=
  { status := .uncertain, overall_score := 0,
    is_based_on_document := false, is_accurate := false,
    is_complete := false, has_hallucinations := true,
    feedback := "Validation error: " ++ e, confidence := 0,
    issues := [.str ("Validation process failed: " ++ e)],
    suggestions := [.str "Please retry the validation"] }

/-- The `ValidationResult` construction from a parsed object
(lines 155-170); `none` models a raised coercion error. -/
def mkValidationResult (j : JObj) : Option ValidationResult := do
  let status ← determineStatus j
  let score ← getFloatD j "overall_score" 0
  let conf ← getFloatD j "confidence" 0
  let iss ← getListD j "issues" []
  let sugg ← getListD j "suggestions" []
  pure { status := status, overall_score := score,
         is_based_on_document := getBoolD j "is_based_on_document" false,
         is_accurate := getBoolD j "is_accurate" false,
         is_complete := getBoolD j "is_complete" false,
         has_hallucinations := getBoolD j "has_hallucinations" false,
         feedback := getStrD j "feedback" "", confidence := conf,
         issues := iss, suggestions := sugg }

/-- `ValidationAgent.validate_answer` (lines 73-189), as a function of the
outcome of the external Generator call (`.error` = raised transport fault,
`.ok` = raw response text).  Every failure is absorbed into
`errorValidationResult`; the function never fails. -/
def validateAnswer (loads : Text → Option JObj)
    (genResult : Except String String) : ValidationResult :=
  match genResult with
  | .error e => errorValidationResult e
  | .ok text =>
    match extractJson loads (pyStrip text.toList) with
    | .error e => errorValidationResult e
    | .ok j =>
      match mkValidationResult j with
      | some r => r
      | none => errorValidationResult "coercion error"

/-! ### QueryHandler and DocumentQAServer (document_qa_server.py 285-496) -/

structure SourceInfo where
  file : String
  chunk_id : String
  similarity_score : ℚ
deriving DecidableEq

/-- Lines 327-333: the `sources` triple for each retrieved chunk. -/
def mkSources (results : List (DocumentChunk × ℚ)) : List SourceInfo :=
  results.map (fun cs => ⟨cs.1.source_file, cs.1.chunk_id, cs.2⟩)

/-- Lines 327-335: the concatenated context string. -/
def mkContext (results : List (DocumentChunk × ℚ)) : String :=
  String.intercalate "\n\n---\n\n"
    (results.map (fun cs =>
      "[Source: " ++ cs.1.source_file ++ "]\n" ++ String.mk cs.1.content))

def noDocsAnswer : String :=
  "No documents have been loaded. Please load a document first."

structure AnswerResult where
  answer : String
  sources : List SourceInfo
  validation : Option ValidationResult

/-- `QueryHandler.answer_question` (lines 301-396).  `gen` is the external
Generator as a function of context and question (the fixed prompt
formatting is external-facing and not modelled); `vgen` is the validation
agent's Generator call as a function of question, answer and context
(`none` = no validation agent configured). -/
def answerQuestion (embed : List Text → Except String (List (List ℚ)))
    (cosSim : List ℚ → List (List ℚ) → List ℚ)
    (argsortImpl : List ℚ → List Nat)
    (gen : String → String → Except String String)
    (vgen : Option (String → String → String → Except String String))
    (loads : Text → Option JObj)
    (st : EmbeddingStoreState) (question : String) (maxChunks : Nat) :
    Except String AnswerResult :=
  match searchStore embed cosSim argsortImpl st question.toList maxChunks with
  | .error e => .error e
  | .ok results =>
    if results = [] then .ok ⟨noDocsAnswer, [], none⟩
    else
      let sources := mkSources results
      let context := mkContext results
      match gen context question with
      | .error e => .ok ⟨"Error generating answer: " ++ e, sources, none⟩
      | .ok answer =>
        let v := vgen.map
          (fun g => validateAnswer loads (g question answer context))
        .ok ⟨answer, sources, v⟩

structure AskResponse where
  status : String
  question : String
  answer : String
  sources : List SourceInfo
  validation : Option ValidationResult

/-- `DocumentQAServer.ask_question` (lines 468-496); `answer_question`
runs with its default `max_context_chunks = 3`. -/
def askQuestion (embed : List Text → Except String (List (List ℚ)))
    (cosSim : List ℚ → List (List ℚ) → List ℚ)
    (argsortImpl : List ℚ → List Nat)
    (gen : String → String → Except String String)
    (vgen : Option (String → String → String → Except String String))
    (loads : Text → Option JObj)
    (st : EmbeddingStoreState) (question : String) : AskResponse :=
  match answerQuestion embed cosSim argsortImpl gen vgen loads st question 3 with
  | .ok r => ⟨"success", question, r.answer, r.sources, r.validation⟩
  | .error e =>
    ⟨"error", question, "Error processing question: " ++ e, [], none⟩

inductive MetaVal where
  | str (s : String)
  | nat (n : Nat)
deriving DecidableEq

structure LoadResponse where
  status : String
  message : String
  metadata : List (String × MetaVal)
deriving DecidableEq

/-- `DocumentQAServer.load_document` (lines 429-466).  `loaded` is the
outcome of the external file loader. -/
def loadDocument (embed : List Text → Except String (List (List ℚ)))
    (st : EmbeddingStoreState) (file_path : String)
    (loaded : Except String String) : EmbeddingStoreState × LoadResponse :=
  match loaded with
  | .error e => (st, ⟨"error", "Failed to load document: " ++ e, []⟩)
  | .ok content =>
    let chunks := chunk_document defaultChunkParams content.toList file_path
    match addChunks embed st chunks with
    | (st', some e) =>
      (st', ⟨"error", "Failed to load document: " ++ e, []⟩)
    | (st', none) =>
      (st', ⟨"success", "Successfully loaded document: " ++ file_path,
        [("file_path", .str file_path),
         ("content_length", .nat content.length),
         ("num_chunks", .nat chunks.length),
         ("total_chunks_in_store", .nat st'.chunks.length)]⟩)

/-- Row count of the store's embedding matrix (an absent matrix has zero
rows). -/
def storeRows (st : EmbeddingStoreState) : Nat :=
  match st.embeddings with
  | none => 0
  | some m => m.length

/-- The VectorStore consistency invariant of claim C3. -/
def storeInv (st : EmbeddingStoreState) : Prop :=
  st.chunks.length = storeRows st

/-! ### Helper lemmas -/

theorem vstack_length {rows : List (Option (List ℚ))} {m : List (List ℚ)}
    (h : vstack rows = some m) : m.length = rows.length := by
  unfold vstack at h
  split at h
  · cases h
  · split at h
    next hc =>
      injection h with h'
      subst h'
      exact hc.1
    next => cases h

/-! ### Claim theorems, first batch -/

/-- C9: `search` on a store holding zero segments returns the empty
sequence and performs no Embedder call — the result does not depend on the
embedder (nor on the similarity or sorting routines, which are also only
reached after the emptiness check). -/
theorem searchStore_empty_no_embed
    (embed embed' : List Text → Except String (List (List ℚ)))
    (cosSim cosSim' : List ℚ → List (List ℚ) → List ℚ)
    (srt srt' : List ℚ → List Nat)
    (st : EmbeddingStoreState) (query : Text) (topK : Nat)
    (h : st.chunks = []) :
    searchStore embed cosSim srt st query topK = .ok [] ∧
    searchStore embed cosSim srt st query topK =
      searchStore embed' cosSim' srt' st query topK := by
  unfold searchStore
  rw [h]
  simp

/-- Witness for C9: a concrete empty store and two embedders (and
similarity/sorting routines) that disagree everywhere. -/
theorem searchStore_empty_no_embed_witness :
    searchStore (fun _ => .error "down") (fun _ _ => []) (fun _ => [])
        emptyStore [] 3 = .ok [] ∧
    searchStore (fun _ => .error "down") (fun _ _ => []) (fun _ => [])
        emptyStore [] 3 =
      searchStore (fun _ => .ok [[1]]) (fun _ _ => [1]) argsortInsertion
        emptyStore [] 3 :=
  searchStore_empty_no_embed (fun _ => .error "down") (fun _ => .ok [[1]])
    (fun _ _ => []) (fun _ _ => [1]) (fun _ => []) argsortInsertion
    emptyStore [] 3 rfl

/-- C2: if the batched embedder call fails, `add_chunks` adds nothing —
the store (segment sequence and matrix) is exactly as before — and
`load_document` surfaces `status: error` with empty metadata. -/
theorem addChunks_embed_failure_atomic
    (embed : List Text → Except String (List (List ℚ)))
    (st : EmbeddingStoreState) :
    (∀ new e, embed (new.map (fun c => c.content)) = .error e →
      addChunks embed st new = (st, some e)) ∧
    (∀ file_path content e,
      embed ((chunk_document defaultChunkParams content.toList
          file_path).map (fun c => c.content)) = .error e →
      loadDocument embed st file_path (.ok content) =
        (st, ⟨"error", "Failed to load document: " ++ e, []⟩)) := by
  have hadd : ∀ new e, embed (new.map (fun c => c.content)) = .error e →
      addChunks embed st new = (st, some e) := by
    intro new e h
    unfold addChunks
    rw [h]
  refine ⟨hadd, ?_⟩
  intro file_path content e h
  have h1 := hadd _ _ h
  simp only [loadDocument]
  rw [h1]

/-- Witness for C2: an embedder that always fails, applied to the empty
document. -/
theorem addChunks_embed_failure_atomic_witness :
    addChunks (fun _ => .error "down") emptyStore [] =
      (emptyStore, some "down") ∧
    loadDocument (fun _ => .error "down") emptyStore "d.txt" (.ok "") =
      (emptyStore, ⟨"error", "Failed to load document: down", []⟩) :=
  ⟨(addChunks_embed_failure_atomic (fun _ => .error "down") emptyStore).1
      [] "down" rfl,
   (addChunks_embed_failure_atomic (fun _ => .error "down") emptyStore).2
      "d.txt" "" "down" rfl⟩

/-- C3: `len(segments) == rows(matrix)` holds initially, after `clear`,
and after every completed insert; moreover every completed insert rebuilds
the whole matrix from the full (old ++ new) segment sequence. -/
theorem store_length_matches_rows :
    storeInv emptyStore ∧
    (∀ st, storeInv (clearStore st)) ∧
    (∀ embed st new st', addChunks embed st new = (st', none) →
      storeInv st' ∧
      st'.embeddings = vstack (st'.chunks.map (fun c => c.embedding))) := by
  refine ⟨rfl, fun _ => rfl, ?_⟩
  intro embed st new st' h
  unfold addChunks at h
  cases hE : embed (new.map (fun c => c.content)) with
  | error e => rw [hE] at h; cases h
  | ok embs =>
    rw [hE] at h
    simp only at h
    cases hv : vstack ((st.chunks ++ assignEmbeddings new embs).map
        (fun c => c.embedding)) with
    | none => rw [hv] at h; cases h
    | some m =>
      rw [hv] at h
      injection h with h1 _
      subst h1
      constructor
      · show (st.chunks ++ assignEmbeddings new embs).length = storeRows _
        unfold storeRows
        simp only
        rw [vstack_length hv, List.length_map]
      · exact hv.symm

/-- A sample chunk used by concrete witness instances. -/
def demoChunk : DocumentChunk :=
  { content := "hi".toList, chunk_id := "d_0", source_file := "d.txt",
    start_char := 0, end_char := 2, embedding := none }

/-- `demoChunk` after its embedding is assigned. -/
def demoChunkE : DocumentChunk := { demoChunk with embedding := some [1, 0] }

/-- The store after inserting `demoChunk` into the empty store. -/
def demoStore : EmbeddingStoreState := ⟨[demoChunkE], some [[1, 0]]⟩

/-- Witness for C3: one completed insert of a single chunk into the empty
store. -/
theorem store_length_matches_rows_witness :
    storeInv demoStore ∧
    demoStore.embeddings =
      vstack (demoStore.chunks.map (fun c => c.embedding)) :=
  store_length_matches_rows.2.2 (fun _ => .ok [[1, 0]]) emptyStore
    [demoChunk] demoStore (by rfl)

/-- C4: the validation status is computed by the ordered decision table of
the spec (first match wins), for every score and every combination of the
boolean flags — in particular at all the listed boundary scores — and the
defaulting field extraction feeds exactly these three values into the
table. -/
theorem determineStatus_matches_table (q : ℚ) (b h : Bool) :
    determineStatusCore q b h = specStatusTable q b h ∧
    determineStatus
        [("overall_score", .num q), ("is_based_on_document", .bool b),
         ("has_hallucinations", .bool h)] =
      some (determineStatusCore q b h) := by
  constructor
  · cases b <;> cases h <;> simp [determineStatusCore, specStatusTable]
  · rfl

/-- C5: on a failed Generator call, and on a failed parse of the response,
`validate_answer` returns (never raises) the synthesized UNCERTAIN result:
score 0, confidence 0, `has_hallucinations = true`, a feedback string
describing the failure, and the retry suggestion. -/
theorem validateAnswer_absorbs_faults (loads : Text → Option JObj)
    (r : Except String String)
    (h : (∃ e, r = .error e) ∨
      ∃ s e, r = .ok s ∧ extractJson loads (pyStrip s.toList) = .error e) :
    ∃ m, validateAnswer loads r = errorValidationResult m ∧
      (validateAnswer loads r).status = .uncertain ∧
      (validateAnswer loads r).overall_score = 0 ∧
      (validateAnswer loads r).confidence = 0 ∧
      (validateAnswer loads r).has_hallucinations = true ∧
      (validateAnswer loads r).feedback = "Validation error: " ++ m ∧
      (validateAnswer loads r).suggestions =
        [.str "Please retry the validation"] := by
  have hv : ∃ m, validateAnswer loads r = errorValidationResult m := by
    rcases h with ⟨e, rfl⟩ | ⟨s, e, rfl, hx⟩
    · exact ⟨e, rfl⟩
    · refine ⟨e, ?_⟩
      simp only [validateAnswer]
      rw [hx]
  obtain ⟨m, hm⟩ := hv
  exact ⟨m, hm, by rw [hm]; rfl, by rw [hm]; rfl, by rw [hm]; rfl,
    by rw [hm]; rfl, by rw [hm]; rfl, by rw [hm]; rfl⟩

/-- Witness for C5: a Generator transport fault. -/
theorem validateAnswer_absorbs_faults_witness :
    ∃ m, validateAnswer (fun _ => none) (.error "down") =
        errorValidationResult m ∧
      (validateAnswer (fun _ => none) (.error "down")).status =
        .uncertain ∧
      (validateAnswer (fun _ => none) (.error "down")).overall_score = 0 ∧
      (validateAnswer (fun _ => none) (.error "down")).confidence = 0 ∧
      (validateAnswer (fun _ => none)
          (.error "down")).has_hallucinations = true ∧
      (validateAnswer (fun _ => none) (.error "down")).feedback =
        "Validation error: " ++ m ∧
      (validateAnswer (fun _ => none) (.error "down")).suggestions =
        [.str "Please retry the validation"] :=
  validateAnswer_absorbs_faults (fun _ => none) (.error "down")
    (Or.inl ⟨"down", rfl⟩)

/-- C8: when retrieval succeeds with a non-empty result but the Generator
call fails, `ask_question` returns a success-shaped response whose answer
is an error-describing string and whose sources still list the
{file, chunk_id, similarity_score} triples of all retrieved segments. -/
theorem askQuestion_gen_failure
    (embed : List Text → Except String (List (List ℚ)))
    (cosSim : List ℚ → List (List ℚ) → List ℚ)
    (srt : List ℚ → List Nat)
    (gen : String → String → Except String String)
    (vgen : Option (String → String → String → Except String String))
    (loads : Text → Option JObj) (st : EmbeddingStoreState)
    (q e : String) (results : List (DocumentChunk × ℚ))
    (hs : searchStore embed cosSim srt st q.toList 3 = .ok results)
    (hne : results ≠ [])
    (hg : gen (mkContext results) q = .error e) :
    askQuestion embed cosSim srt gen vgen loads st q =
      ⟨"success", q, "Error generating answer: " ++ e,
        mkSources results, none⟩ := by
  simp only [askQuestion, answerQuestion, hs, if_neg hne, hg]

/-- A second sample chunk (distinct id), inserted after `demoChunk`. -/
def demoChunk2 : DocumentChunk :=
  { content := "yo".toList, chunk_id := "d_1", source_file := "d.txt",
    start_char := 0, end_char := 2, embedding := some [0, 1] }

/-- Witness for C8: a one-chunk store, an embedder and similarity stub,
the sort numpy runs on one-element arrays, and a Generator that raises. -/
theorem askQuestion_gen_failure_witness :
    askQuestion (fun _ => .ok [[1]]) (fun _ _ => [1]) argsortInsertion
        (fun _ _ => .error "down") none (fun _ => none) demoStore "q" =
      ⟨"success", "q", "Error generating answer: down",
        mkSources [(demoChunkE, 1)], none⟩ :=
  askQuestion_gen_failure (fun _ => .ok [[1]]) (fun _ _ => [1])
    argsortInsertion (fun _ _ => .error "down") none (fun _ => none)
    demoStore "q" "down" [(demoChunkE, 1)] (by rfl) (by simp) (by rfl)

/-! ### Search ordering (claim C1) -/

instance (sims : List ℚ) : IsTotal Nat (argsortLe sims) := ⟨by
  intro i j
  unfold argsortLe
  rcases lt_trichotomy (sims.getD i 0) (sims.getD j 0) with h | h | h
  · exact Or.inl (Or.inl h)
  · rcases le_total i j with hij | hij
    · exact Or.inl (Or.inr ⟨h, hij⟩)
    · exact Or.inr (Or.inr ⟨h.symm, hij⟩)
  · exact Or.inr (Or.inl h)⟩

instance (sims : List ℚ) : IsTrans Nat (argsortLe sims) := ⟨by
  intro a b c hab hbc
  unfold argsortLe at hab hbc ⊢
  rcases hab with h1 | ⟨e1, l1⟩ <;> rcases hbc with h2 | ⟨e2, l2⟩
  · exact Or.inl (h1.trans h2)
  · exact Or.inl (lt_of_lt_of_eq h1 e2)
  · exact Or.inl (lt_of_eq_of_lt e1 h2)
  · exact Or.inr ⟨e1.trans e2, l1.trans l2⟩⟩

/-- The small-array insertion-sort path satisfies the general `np.argsort`
contract. -/
theorem argsortInsertion_isArgsortOf (sims : List ℚ) :
    IsArgsortOf sims (argsortInsertion sims) := by
  constructor
  · exact List.perm_insertionSort _ _
  · have hsorted : List.Pairwise (argsortLe sims) (argsortInsertion sims) :=
      List.sorted_insertionSort _ _
    refine hsorted.imp ?_
    intro i j hij
    rcases hij with h | ⟨h, _⟩
    · exact le_of_lt h
    · exact le_of_eq h

/-- C1 (amended): on a non-empty store, `search` returns exactly
`min(topK, storeSize)` pairs and their scores are non-increasing, for
EVERY index permutation the external `np.argsort` may return under its
contract.  No relative order of equal-scoring segments is asserted:
numpy's default quicksort is not stable in general, so insertion order is
not respected among ties (see the counterexample). -/
theorem search_topk_sorted (chunks : List DocumentChunk) (sims : List ℚ)
    (perm : List Nat) (topK : Nat)
    (hlen : sims.length = chunks.length) (hne : chunks ≠ [])
    (hperm : IsArgsortOf sims perm) :
    (searchCore perm chunks sims topK).length = min topK chunks.length ∧
    List.Pairwise (fun a b : DocumentChunk × ℚ => b.2 ≤ a.2)
      (searchCore perm chunks sims topK) := by
  obtain ⟨hp, hsorted⟩ := hperm
  refine ⟨?_, ?_⟩
  · show ((topIndices perm topK).map _).length = _
    rw [List.length_map]
    unfold topIndices
    rw [List.length_take, List.length_reverse, hp.length_eq,
      List.length_range, hlen]
  · unfold searchCore
    rw [List.pairwise_map]
    have hrev : List.Pairwise (fun i j => sims.getD j 0 ≤ sims.getD i 0)
        perm.reverse := List.pairwise_reverse.mpr hsorted
    exact List.Pairwise.sublist (List.take_sublist _ _) hrev

/-- Witness for C1 (amended): two equal-scoring chunks, `topK = 2`, with
the permutation numpy's small-array insertion-sort path produces. -/
theorem search_topk_sorted_witness :
    (searchCore (argsortInsertion [1, 1]) [demoChunkE, demoChunk2]
        [1, 1] 2).length =
      min 2 ([demoChunkE, demoChunk2] : List DocumentChunk).length ∧
    List.Pairwise (fun a b : DocumentChunk × ℚ => b.2 ≤ a.2)
      (searchCore (argsortInsertion [1, 1]) [demoChunkE, demoChunk2]
        [1, 1] 2) :=
  search_topk_sorted [demoChunkE, demoChunk2] [1, 1]
    (argsortInsertion [1, 1]) 2 (by rfl) (by simp)
    (argsortInsertion_isArgsortOf [1, 1])

/-- Counterexample for C1 as stated: on a two-chunk store — far below
numpy's introsort cutoff, where `np.argsort` deterministically runs its
stable insertion-sort path, modelled exactly by `argsortInsertion` — two
equal-scoring segments come back with the LATER-inserted one first, so the
earlier-inserted segment does not precede the equal-scoring later one. -/
theorem search_tie_earlier_first_cex :
    searchCore (argsortInsertion [1, 1]) [demoChunkE, demoChunk2] [1, 1] 2 =
      [(demoChunk2, 1), (demoChunkE, 1)] ∧ demoChunkE ≠ demoChunk2 := by
  constructor
  · rfl
  · decide

/-! ### JSON extraction (claim C6) -/

theorem strFind_notin {c : Char} : ∀ {s : Text}, c ∉ s → strFind s c = none := by
  intro s
  induction s with
  | nil => intro _; rfl
  | cons x xs ih =>
    intro h
    have hx : ¬ x = c := fun hh => h (by simp [hh])
    simp [strFind, hx, ih (fun hm => h (List.mem_cons_of_mem _ hm))]

theorem strFind_append_notin {c : Char} {pre s : Text} (h : c ∉ pre) :
    strFind (pre ++ s) c = (strFind s c).map (fun k => k + pre.length) := by
  induction pre with
  | nil =>
    simp only [List.nil_append, List.length_nil]
    cases strFind s c <;> simp
  | cons x xs ih =>
    have hx : ¬ x = c := fun hh => h (by simp [hh])
    have ih' := ih (fun hm => h (List.mem_cons_of_mem _ hm))
    rw [show (x :: xs) ++ s = x :: (xs ++ s) from rfl]
    rw [show strFind (x :: (xs ++ s)) c =
      if x = c then some 0
      else (strFind (xs ++ s) c).map (fun k => k + 1) from rfl]
    rw [if_neg hx, ih']
    cases strFind s c <;> simp [Nat.add_assoc]

theorem strFind_cons_self (c : Char) (s : Text) : strFind (c :: s) c = some 0 := by
  simp [strFind]

/-- C6: the parsing policy of `validate_answer`: direct parse of the
(already trimmed) response first; else the inclusive substring from the
first opening brace to the last closing brace is parsed, so an object
embedded in surrounding prose is still extracted; when no object can be
obtained the result is an error; a successfully parsed object with all
fields missing yields the default-filled result (false / 0 / empty list /
empty string) rather than an error; and `validate_answer` consumes the
parsed object of the trimmed response. -/
theorem extractJson_policy (loads : Text → Option JObj) :
    (∀ s j, loads s = some j → extractJson loads s = .ok j) ∧
    (∀ pre mid post j,
      loads (pre ++ '{' :: (mid ++ '}' :: post)) = none →
      '{' ∉ pre → '}' ∉ post →
      loads ('{' :: (mid ++ ['}'])) = some j →
      extractJson loads (pre ++ '{' :: (mid ++ '}' :: post)) = .ok j) ∧
    (∀ s, loads s = none → '{' ∉ s → ∃ e, extractJson loads s = .error e) ∧
    mkValidationResult [] = some
      { status := .invalid, overall_score := 0,
        is_based_on_document := false, is_accurate := false,
        is_complete := false, has_hallucinations := false, feedback := "",
        confidence := 0, issues := [], suggestions := [] } ∧
    (∀ raw j r, extractJson loads (pyStrip raw.toList) = .ok j →
      mkValidationResult j = some r → validateAnswer loads (.ok raw) = r) := by
  refine ⟨?_, ?_, ?_, ?_, ?_⟩
  · intro s j h
    unfold extractJson
    rw [h]
  · intro pre mid post j hnone hnpre hnpost hmid
    have ha : strFind (pre ++ '{' :: (mid ++ '}' :: post)) '{' =
        some pre.length := by
      rw [strFind_append_notin hnpre, strFind_cons_self]
      simp
    have hsrev : (pre ++ '{' :: (mid ++ '}' :: post)).reverse =
        post.reverse ++ '}' :: (mid.reverse ++ '{' :: pre.reverse) := by
      simp
    have hnpost' : '}' ∉ post.reverse := by simpa using hnpost
    have hb : strRFind (pre ++ '{' :: (mid ++ '}' :: post)) '}' =
        some (pre.length + mid.length + 1) := by
      unfold strRFind
      rw [hsrev, strFind_append_notin hnpost', strFind_cons_self]
      simp only [Option.map_some']
      congr 1
      simp [List.length_append]
      omega
    have hslice :
        (((pre ++ '{' :: (mid ++ '}' :: post)).take
            (pre.length + mid.length + 1 + 1)).drop pre.length) =
          '{' :: (mid ++ ['}']) := by
      have hassoc : pre ++ '{' :: (mid ++ '}' :: post) =
          (pre ++ '{' :: (mid ++ ['}'])) ++ post := by
        simp
      have hlen : pre.length + mid.length + 1 + 1 =
          (pre ++ '{' :: (mid ++ ['}'])).length := by
        simp [List.length_append]
        omega
      rw [hassoc, hlen, List.take_left]
      exact List.drop_left _ _
    simp only [extractJson, hnone, ha, hb]
    rw [if_pos (by omega : pre.length < pre.length + mid.length + 1)]
    rw [hslice, hmid]
  · intro s hnone hni
    rcases hr : strRFind s '}' with _ | b <;>
      simp [extractJson, hnone, strFind_notin hni, hr]
  · rfl
  · intro raw j r h1 h2
    simp only [validateAnswer]
    rw [h1]
    show (match mkValidationResult j with
      | some r => r
      | none => errorValidationResult "coercion error") = r
    rw [h2]

/-- A concrete `json.loads` stub recognising exactly the empty object. -/
def loadsDemo : Text → Option JObj :=
  fun t => if t = '{' :: ('}' :: []) then some [] else none

/-- Witness for C6: the object `\x7b\x7d` embedded in the prose `a\x7b\x7db`
is still extracted although the direct parse fails. -/
theorem extractJson_policy_witness :
    extractJson loadsDemo ('a' :: '{' :: '}' :: 'b' :: []) = .ok [] :=
  (extractJson_policy loadsDemo).2.1 ['a'] [] ['b'] []
    (by rfl) (by decide) (by decide) (by rfl)

/-! ### Chunker overlap and offset properties (claims C7, C10) -/

/-- Whether a text ends in a non-whitespace character (the loop invariant
of the paragraph accumulation buffer). -/
def endsNonWS (s : Text) : Bool :=
  match s.getLast? with
  | some c => !(isWS c)
  | none => false

theorem endsNonWS_ne_nil {s : Text} (h : endsNonWS s = true) : s ≠ [] := by
  rintro rfl
  simp [endsNonWS] at h

theorem endsNonWS_append_right {a b : Text} (hb : b ≠ []) :
    endsNonWS (a ++ b) = endsNonWS b := by
  unfold endsNonWS
  rw [List.getLast?_append]
  cases hl : b.getLast? with
  | none => exact absurd (List.getLast?_eq_none.mp hl) hb
  | some c => simp [Option.or]

theorem dropWhile_head_false {p : Char → Bool} :
    ∀ {l : List Char} {a : Char} {t : List Char},
      l.dropWhile p = a :: t → p a = false := by
  intro l
  induction l with
  | nil => intro a t h; cases h
  | cons x xs ih =>
    intro a t h
    rw [List.dropWhile_cons] at h
    by_cases hx : p x = true
    · rw [if_pos hx] at h; exact ih h
    · rw [if_neg hx] at h
      injection h with h1 _
      subst h1
      exact Bool.not_eq_true _ ▸ (by simpa using hx)

theorem endsNonWS_pyLStrip {s : Text} (h : endsNonWS s = true) :
    endsNonWS (pyLStrip s) = true := by
  have hsplit : s.takeWhile isWS ++ pyLStrip s = s :=
    List.takeWhile_append_dropWhile isWS s
  cases hd : pyLStrip s with
  | nil =>
    exfalso
    rw [hd, List.append_nil] at hsplit
    have hne : s ≠ [] := endsNonWS_ne_nil h
    obtain ⟨c, hl⟩ : ∃ c, s.getLast? = some c :=
      ⟨_, List.getLast?_eq_getLast_of_ne_nil hne⟩
    have hsc : s.dropLast ++ [c] = s :=
      List.dropLast_append_getLast? c (Option.mem_def.mpr hl)
    have hcm : c ∈ s := by
      rw [← hsc]
      exact List.mem_append_right _ (List.mem_singleton_self c)
    rw [← hsplit] at hcm
    have hws := List.mem_takeWhile_imp hcm
    simp [endsNonWS, hl, hws] at h
  | cons a t =>
    have hne : pyLStrip s ≠ [] := by rw [hd]; exact List.cons_ne_nil a t
    have heq : endsNonWS s = endsNonWS (pyLStrip s) := by
      conv_lhs => rw [← hsplit]
      exact endsNonWS_append_right hne
    rw [← hd, ← heq]
    exact h

theorem pyRStrip_endsNonWS {s : Text} (h : endsNonWS s = true) :
    pyRStrip s = s := by
  unfold pyRStrip
  unfold endsNonWS at h
  cases hr : s.reverse with
  | nil =>
    have : s = [] := List.reverse_eq_nil_iff.mp hr
    subst this
    simp at h
  | cons c t =>
    have hc : s.getLast? = some c := by
      rw [← List.head?_reverse, hr]
      rfl
    rw [hc] at h
    have hcw : isWS c = false := by simpa using h
    have hdw : List.dropWhile isWS (c :: t) = c :: t := by
      rw [List.dropWhile_cons, hcw]
      simp
    rw [hdw, ← hr, List.reverse_reverse]

theorem pyStrip_of_endsNonWS {s : Text} (h : endsNonWS s = true) :
    pyStrip s = pyLStrip s := by
  unfold pyStrip
  exact pyRStrip_endsNonWS (endsNonWS_pyLStrip h)

theorem pyStrip_length_le (s : Text) : (pyStrip s).length ≤ s.length := by
  unfold pyStrip pyRStrip pyLStrip
  rw [List.length_reverse]
  calc (List.dropWhile isWS (s.dropWhile isWS).reverse).length
      ≤ (s.dropWhile isWS).reverse.length :=
        (List.dropWhile_sublist isWS).length_le
    _ = (s.dropWhile isWS).length := List.length_reverse _
    _ ≤ s.length := (List.dropWhile_sublist isWS).length_le

theorem dropWhile_eq_drop (p : Char → Bool) :
    ∀ s : Text, s.dropWhile p = s.drop (s.takeWhile p).length
  | [] => rfl
  | a :: t => by
    rw [List.dropWhile_cons, List.takeWhile_cons]
    by_cases hp : p a = true
    · rw [if_pos hp, if_pos hp]
      simp [dropWhile_eq_drop p t]
    · rw [if_neg hp, if_neg hp]
      simp

theorem pyLStrip_append_of_ne {a b : Text} (h : pyLStrip a ≠ []) :
    pyLStrip (a ++ b) = pyLStrip a ++ b := by
  unfold pyLStrip at *
  rw [List.dropWhile_append]
  rw [if_neg (by simpa [List.isEmpty_iff] using h)]

theorem lastk_pyStrip {s : Text} (h : endsNonWS s = true) {k : Nat}
    (hk : k ≤ (pyStrip s).length) :
    (pyStrip s).drop ((pyStrip s).length - k) = s.drop (s.length - k) := by
  rw [pyStrip_of_endsNonWS h] at hk ⊢
  have hd : pyLStrip s = s.drop (s.takeWhile isWS).length :=
    dropWhile_eq_drop isWS s
  rw [hd] at hk ⊢
  rw [List.length_drop] at hk ⊢
  rw [List.drop_drop]
  congr 1
  have hle : (s.takeWhile isWS).length ≤ s.length :=
    (List.takeWhile_sublist isWS).length_le
  omega

theorem overlapText_eq_lastk {cur : Text} {ov : Nat}
    (hov : 1 ≤ ov) (hk : ov ≤ (pyStrip cur).length) :
    overlapText cur ov = cur.drop (cur.length - ov) := by
  unfold overlapText pySliceLast
  by_cases hlen : cur.length > ov
  · rw [if_pos hlen, if_neg (by omega : ¬ ov = 0)]
  · rw [if_neg hlen]
    have hle : (pyStrip cur).length ≤ cur.length := pyStrip_length_le cur
    have hz : cur.length - ov = 0 := by omega
    rw [hz, List.drop_zero]

/-- The overlap seed survives as a prefix of the next closed buffer's
stripped content, once its own leading whitespace is removed. -/
theorem seed_prefix {cur rest : Text} {ov : Nat}
    (hcur : endsNonWS cur = true) (hov : 1 ≤ ov)
    (hk : ov ≤ (pyStrip cur).length)
    (hrest : endsNonWS (overlapText cur ov ++ rest) = true) :
    ((pyStrip cur).drop ((pyStrip cur).length - ov)).dropWhile isWS <+:
      pyStrip (overlapText cur ov ++ rest) := by
  have hovt : overlapText cur ov = cur.drop (cur.length - ov) :=
    overlapText_eq_lastk hov hk
  have hlast : (pyStrip cur).drop ((pyStrip cur).length - ov) =
      cur.drop (cur.length - ov) := lastk_pyStrip hcur hk
  have hovNE : endsNonWS (overlapText cur ov) = true := by
    rw [hovt]
    have hsplit : cur.take (cur.length - ov) ++ cur.drop (cur.length - ov) =
        cur := List.take_append_drop _ _
    have hcl : 1 ≤ cur.length := by
      have h1 := pyStrip_length_le cur
      omega
    have hdne : cur.drop (cur.length - ov) ≠ [] := by
      intro hnil
      have h1 : (cur.drop (cur.length - ov)).length =
          cur.length - (cur.length - ov) := List.length_drop _ _
      rw [hnil] at h1
      simp at h1
      omega
    calc endsNonWS (cur.drop (cur.length - ov))
        = endsNonWS (cur.take (cur.length - ov) ++
            cur.drop (cur.length - ov)) :=
          (endsNonWS_append_right hdne).symm
      _ = endsNonWS cur := by rw [hsplit]
      _ = true := hcur
  have hstrip : pyStrip (overlapText cur ov ++ rest) =
      pyLStrip (overlapText cur ov ++ rest) := pyStrip_of_endsNonWS hrest
  have hlns : pyLStrip (overlapText cur ov) ≠ [] :=
    endsNonWS_ne_nil (endsNonWS_pyLStrip hovNE)
  rw [hstrip, pyLStrip_append_of_ne hlns, hlast, ← hovt]
  exact List.prefix_append _ _

/-- Chain invariant for the paragraph-accumulation loop: consecutive
produced chunks satisfy the (amended) overlap-prefix property, and the
first chunk a run produces closes an extension of the incoming buffer. -/
theorem chunkAux_chain (P : ChunkParams) (stem source : String)
    (hov : 1 ≤ P.overlap) :
    ∀ (paras : List Text) (cur : Text) (start : Int) (cid : Nat),
      (∀ p ∈ paras, p ≠ [] ∧ endsNonWS p = true) →
      (cur = [] ∨ endsNonWS cur = true) →
      List.Chain' (fun c₁ c₂ => P.overlap ≤ c₁.content.length →
          (c₁.content.drop (c₁.content.length - P.overlap)).dropWhile isWS
            <+: c₂.content)
        (chunkDocAux P stem source paras cur start cid) ∧
      ∀ c₀, (chunkDocAux P stem source paras cur start cid).head? = some c₀ →
        ∃ ext, c₀.content = pyStrip (cur ++ ext) ∧
          endsNonWS (cur ++ ext) = true := by
  intro paras
  induction paras with
  | nil =>
    intro cur start cid _ hcur
    constructor
    · simp only [chunkDocAux]
      split
      · exact List.chain'_singleton _
      · exact List.chain'_nil
    · intro c₀ hc₀
      simp only [chunkDocAux] at hc₀
      split at hc₀
      next hne =>
        simp only [List.head?_cons, Option.some.injEq] at hc₀
        subst hc₀
        rcases hcur with rfl | hcur
        · exact absurd rfl hne
        · exact ⟨[], by simp, by rw [List.append_nil]; exact hcur⟩
      next => simp at hc₀
  | cons p ps ih =>
    intro cur start cid hps hcur
    have hp := hps p (List.mem_cons_self p ps)
    have hps' : ∀ q ∈ ps, q ≠ [] ∧ endsNonWS q = true :=
      fun q hq => hps q (List.mem_cons_of_mem p hq)
    simp only [chunkDocAux]
    split
    next hclose =>
      have hcurNE : endsNonWS cur = true := by
        rcases hcur with rfl | hcur
        · exact absurd rfl hclose.2
        · exact hcur
      have hseedNE : endsNonWS (overlapText cur P.overlap ++ '\n' :: p) =
          true := by
        rw [show ('\n' :: p : Text) = ['\n'] ++ p from rfl,
          ← List.append_assoc]
        rw [endsNonWS_append_right hp.1]
        exact hp.2
      obtain ⟨hchain, hhead⟩ := ih (overlapText cur P.overlap ++ '\n' :: p)
        (start + ((overlapText cur P.overlap ++ '\n' :: p).length : Int) -
          ((overlapText cur P.overlap).length : Int) - (p.length : Int) - 1)
        (cid + 1) hps' (Or.inr hseedNE)
      constructor
      · rw [List.chain'_cons']
        refine ⟨?_, hchain⟩
        intro c₀ hc₀
        obtain ⟨ext, hext, hextNE⟩ := hhead c₀ hc₀
        intro hovlen
        simp only at hovlen ⊢
        rw [hext]
        have hextNE' : endsNonWS (overlapText cur P.overlap ++
            ('\n' :: p ++ ext)) = true := by
          rw [← List.append_assoc]
          exact hextNE
        rw [List.append_assoc]
        exact seed_prefix hcurNE hov hovlen hextNE'
      · intro c₀ hc₀
        simp only [List.head?_cons, Option.some.injEq] at hc₀
        subst hc₀
        exact ⟨[], by simp, by rw [List.append_nil]; exact hcurNE⟩
    next hnc =>
      by_cases hc : cur = []
      · subst hc
        rw [if_neg (by simp : ¬ (([] : Text) ≠ []))]
        obtain ⟨hchain, hhead⟩ := ih p start cid hps' (Or.inr hp.2)
        refine ⟨hchain, ?_⟩
        intro c₀ hc₀
        obtain ⟨ext, hext, hextNE⟩ := hhead c₀ hc₀
        exact ⟨p ++ ext, by simpa using hext, by simpa using hextNE⟩
      · rw [if_pos hc]
        have hcne : endsNonWS (cur ++ '\n' :: p) = true := by
          rw [show ('\n' :: p : Text) = ['\n'] ++ p from rfl,
            ← List.append_assoc]
          rw [endsNonWS_append_right hp.1]
          exact hp.2
        obtain ⟨hchain, hhead⟩ :=
          ih (cur ++ '\n' :: p) start cid hps' (Or.inr hcne)
        refine ⟨hchain, ?_⟩
        intro c₀ hc₀
        obtain ⟨ext, hext, hextNE⟩ := hhead c₀ hc₀
        refine ⟨'\n' :: p ++ ext, ?_, ?_⟩
        · rw [hext, List.append_assoc]
        · rw [← List.append_assoc]
          exact hextNE

theorem endsNonWS_pyStrip_of_ne {q : Text} (h : pyStrip q ≠ []) :
    endsNonWS (pyStrip q) = true := by
  unfold pyStrip pyRStrip at h ⊢
  cases hu : (pyLStrip q).reverse.dropWhile isWS with
  | nil => rw [hu] at h; simp at h
  | cons a t =>
    have ha : isWS a = false := dropWhile_head_false hu
    unfold endsNonWS
    rw [List.getLast?_reverse]
    simp [ha]

/-- C7 (amended): between consecutive produced segments, the last
`overlapSize` characters of the earlier segment's content — after dropping
their LEADING WHITESPACE, which `strip()` removes from the reseeded
buffer — form a prefix of the next segment's content, whenever the earlier
content is at least `overlapSize` long and `overlapSize ≥ 1`. -/
theorem chunk_overlap_amended (P : ChunkParams) (content : Text)
    (src : String) (hov : 1 ≤ P.overlap) :
    List.Chain' (fun c₁ c₂ => P.overlap ≤ c₁.content.length →
        (c₁.content.drop (c₁.content.length - P.overlap)).dropWhile isWS
          <+: c₂.content)
      (chunk_document P content src) := by
  refine (chunkAux_chain P (pathStem src) src hov
    (splitByParagraphs content) [] 0 0 ?_ (Or.inl rfl)).1
  intro q hq
  unfold splitByParagraphs at hq
  rw [List.mem_filter] at hq
  obtain ⟨hmem, hq2⟩ := hq
  have hne : q ≠ [] := by simpa using hq2
  obtain ⟨q0, _, rfl⟩ := List.mem_map.mp hmem
  exact ⟨hne, endsNonWS_pyStrip_of_ne hne⟩

/-- The document of the chunker counterexample: three two-character
paragraphs, chunked with `chunk_size = 5`, `overlap = 3`. -/
def cexDoc : Text := "ab\n\ncd\n\nef".toList

/-- Witness for C7 (amended): the counterexample document, where the
leading-whitespace-stripped overlap "cd" is indeed a prefix of "cd\nef". -/
theorem chunk_overlap_amended_witness :
    List.Chain' (fun c₁ c₂ => 3 ≤ c₁.content.length →
        (c₁.content.drop (c₁.content.length - 3)).dropWhile isWS
          <+: c₂.content)
      (chunk_document ⟨5, 3⟩ cexDoc "s.txt") :=
  chunk_overlap_amended ⟨5, 3⟩ cexDoc "s.txt" (by decide)

/-- Counterexample for C7 as stated: chunking `"ab\n\ncd\n\nef"` with
`chunk_size = 5`, `overlap = 3` produces contents `"ab\ncd"` and
`"cd\nef"`; the earlier content is at least 3 characters long, yet its last
3 characters `"\ncd"` are NOT a prefix of the next content (the reseeded
buffer's leading newline was stripped). -/
theorem chunk_overlap_prefix_cex :
    (chunk_document ⟨5, 3⟩ cexDoc "s.txt").map (fun c => c.content) =
      ["ab\ncd".toList, "cd\nef".toList] ∧
    3 ≤ ("ab\ncd".toList : Text).length ∧
    ¬ ((("ab\ncd".toList : Text).drop (("ab\ncd".toList : Text).length - 3))
        <+: ("cd\nef".toList : Text)) :=
  ⟨by decide, by decide, by decide⟩

theorem chunkAux_offsets (P : ChunkParams) (stem source : String) :
    ∀ (paras : List Text) (cur : Text) (start : Int) (cid : Nat),
      ∀ c ∈ chunkDocAux P stem source paras cur start cid,
        ∃ b : Text, c.content = pyStrip b ∧
          c.end_char - c.start_char = (b.length : Int) := by
  intro paras
  induction paras with
  | nil =>
    intro cur start cid c hc
    simp only [chunkDocAux] at hc
    split at hc
    · rw [List.mem_singleton] at hc
      subst hc
      exact ⟨cur, rfl,
        by show start + (cur.length : Int) - start = (cur.length : Int); ring⟩
    · simp at hc
  | cons p ps ih =>
    intro cur start cid c hc
    simp only [chunkDocAux] at hc
    split at hc
    · rcases List.mem_cons.mp hc with rfl | hc'
      · exact ⟨cur, rfl,
          by show start + (cur.length : Int) - start = (cur.length : Int); ring⟩
      · exact ih _ _ _ c hc'
    · exact ih _ _ _ c hc

/-- C10: every produced segment records offsets spanning exactly the
accumulation buffer it was closed from (`end_char - start_char` = buffer
length), while its content is that buffer stripped — hence
`end_char - start_char ≥ len(content)`. -/
theorem chunk_offsets_span_buffer (P : ChunkParams) (content : Text)
    (src : String) :
    ∀ c ∈ chunk_document P content src,
      ∃ b : Text, c.content = pyStrip b ∧
        c.end_char - c.start_char = (b.length : Int) ∧
        (c.content.length : Int) ≤ c.end_char - c.start_char := by
  intro c hc
  obtain ⟨b, h1, h2⟩ := chunkAux_offsets P (pathStem src) src _ _ _ _ c hc
  refine ⟨b, h1, h2, ?_⟩
  rw [h2, h1]
  exact_mod_cast pyStrip_length_le b

/-- Witness for C10: the first chunk of the counterexample document. -/
theorem chunk_offsets_span_buffer_witness :
    ∃ b : Text,
      (⟨"ab\ncd".toList, "s_0", "s.txt", 0, 5, none⟩ :
          DocumentChunk).content = pyStrip b ∧
      (⟨"ab\ncd".toList, "s_0", "s.txt", 0, 5, none⟩ :
          DocumentChunk).end_char -
        (⟨"ab\ncd".toList, "s_0", "s.txt", 0, 5, none⟩ :
          DocumentChunk).start_char = (b.length : Int) ∧
      ((⟨"ab\ncd".toList, "s_0", "s.txt", 0, 5, none⟩ :
          DocumentChunk).content.length : Int) ≤
        (⟨"ab\ncd".toList, "s_0", "s.txt", 0, 5, none⟩ :
          DocumentChunk).end_char -
        (⟨"ab\ncd".toList, "s_0", "s.txt", 0, 5, none⟩ :
          DocumentChunk).start_char :=
  chunk_offsets_span_buffer ⟨5, 3⟩ cexDoc "s.txt"
    ⟨"ab\ncd".toList, "s_0", "s.txt", 0, 5, none⟩ (by decide)
